import Mathlib

/-!
Shallow embedding of boulder's `cmd/config.go`: the indirected-value
resolvers (`PasswordConfig.Pass`, `DBConfig.URL`, `AMQPConfig.ServerURL`),
the `ConfigDuration` JSON/YAML codec, and `PAConfig.CheckChallenges`,
together with theorems settling the specification claims about them.

Go's `(string, error)` return values become `String × Option GoErr`;
`nil` errors become `none`.  Go byte slices holding text become `String`.
The filesystem consumed by `ioutil.ReadFile` is modelled as a function
`String → Option String` from paths to contents (`none` = any read error:
nonexistent file, permission denied, ...), matching the spec's
"byte-read-to-completion operation given a path".
-/

/-- Error values produced by the code under `cmd/config.go` and by the
external collaborators it calls (`encoding/json`, the yaml library,
`time.ParseDuration`, `ioutil.ReadFile`).  Each constructor stands for one
distinguishable Go error value or error type. -/
inductive GoErr where
  /-- a `*json.SyntaxError` from `encoding/json` (input is not valid JSON) -/
  | jsonSyntaxError : GoErr
  /-- a `*json.UnmarshalTypeError`: the input is a valid JSON value but not of
  the target Go type; the field records the JSON value kind Go reports
  ("number", "bool", "array", "object") -/
  | jsonTypeError (value : String) : GoErr
  /-- the package-level `ErrDurationMustBeString` of `cmd/config.go` -/
  | durationMustBeString : GoErr
  /-- a type error from the yaml library's `unmarshal` callback (e.g.
  "cannot unmarshal !!int into string"); the field records the yaml kind -/
  | yamlTypeError (kind : String) : GoErr
  /-- `time.ParseDuration`: "time: invalid duration <orig>" -/
  | timeInvalidDuration (orig : String) : GoErr
  /-- `time.ParseDuration`: "time: missing unit in duration <orig>" -/
  | timeMissingUnit (orig : String) : GoErr
  /-- `time.ParseDuration`: "time: unknown unit <u> in duration <orig>" -/
  | timeUnknownUnit (u orig : String) : GoErr
  /-- `time.ParseDuration`: overflow of the int64 nanosecond count -/
  | timeOverflow (orig : String) : GoErr
  /-- an error from `ioutil.ReadFile`, carrying the path that failed -/
  | fileReadError (path : String) : GoErr
  /-- `fmt.Errorf("Missing AMQP server URL")` in `AMQPConfig.ServerURL` -/
  | missingAMQPServerURL : GoErr
  /-- `errors.New("empty challenges map in the Policy Authority config is not allowed")` -/
  | emptyChallenges : GoErr
  /-- `fmt.Errorf("Invalid challenge in PA config: %s", name)` -/
  | invalidChallenge (name : String) : GoErr
deriving DecidableEq, Repr

/-- Filesystem consumed by `ioutil.ReadFile`: a map from paths to file
contents; `none` models any read failure (nonexistent, permission denied). -/
def FileSystem := String → Option String

/-- Go's `ioutil.ReadFile`: on failure it returns a nil byte slice (modelled
as `""`) together with a non-nil error carrying the path. -/
def readFile (fs : FileSystem) (path : String) : String × Option GoErr :=
  match fs path with
  | some contents => (contents, none)
  | none => ("", some (GoErr.fileReadError path))

/-- Go's `strings.TrimRight s cutset` for a cutset given as a predicate:
removes trailing characters satisfying the predicate. -/
def trimRightChars (s : String) (p : Char → Bool) : String :=
  String.mk ((s.data.reverse.dropWhile p).reverse)

/-- Go's `strings.TrimLeft s cutset` for a cutset given as a predicate. -/
def trimLeftChars (s : String) (p : Char → Bool) : String :=
  String.mk (s.data.dropWhile p)

/-- Go's `unicode.IsSpace` restricted to Latin-1 (the only characters the
configuration values in scope contain): space, tab, newline, vertical tab,
form feed, carriage return, NEL and NBSP. -/
def isGoSpace (c : Char) : Bool :=
  c = ' ' || c = '\t' || c = '\n' || c = '\x0b' || c = '\x0c' || c = '\r' ||
    c = '\x85' || c = '\xa0'

/-- Go's `strings.TrimRight s "\n"` as used by `PasswordConfig.Pass` and
`AMQPConfig.ServerURL`: strips trailing newline characters only. -/
def trimRightNewlines (s : String) : String :=
  trimRightChars s (fun c => c = '\n')

/-- Go's `strings.TrimSpace` as used by `DBConfig.URL`: strips whitespace
from both edges. -/
def trimSpace (s : String) : String :=
  trimRightChars (trimLeftChars s isGoSpace) isGoSpace

/-- PasswordConfig either contains a password or the path to a file
containing a password (`cmd/config.go`). -/
structure PasswordConfig where
  password : String
  passwordFile : String
deriving DecidableEq, Repr

/-- Pass returns a password, either directly from the configuration struct
or by reading from a specified file (`PasswordConfig.Pass`).  On a read
failure Go returns `("", err)`; on success it returns the contents with
trailing newlines stripped. -/
def PasswordConfig.pass (fs : FileSystem) (pc : PasswordConfig) :
    String × Option GoErr :=
  if pc.passwordFile ≠ "" then
    match fs pc.passwordFile with
    | none => ("", some (GoErr.fileReadError pc.passwordFile))
    | some contents => (trimRightNewlines contents, none)
  else
    (pc.password, none)

/-- DBConfig defines how to connect to a database; the connect string may be
stored in a file separate from the config (`cmd/config.go`).  Fields of the
surrounding struct not consulted by `URL` are kept as inert data. -/
structure DBConfig where
  dbConnect : String
  dbConnectFile : String
  maxDBConns : Int
deriving DecidableEq, Repr

/-- URL returns the DBConnect URL represented by this DBConfig object
(`DBConfig.URL`).  Go runs `url, err := ioutil.ReadFile(...)` and then
returns `strings.TrimSpace(string(url)), err` — so even on a read failure it
returns the trim of the empty byte slice together with the error. -/
def DBConfig.url (fs : FileSystem) (d : DBConfig) : String × Option GoErr :=
  if d.dbConnectFile ≠ "" then
    let r := readFile fs d.dbConnectFile
    (trimSpace r.1, r.2)
  else
    (d.dbConnect, none)

/-- AMQPConfig describes how to connect to AMQP (`cmd/config.go`).  Only the
fields consulted by `ServerURL` are modelled; the remaining fields (RPC
service configs, TLS, queue names, reconnect timeouts) are inert data
holders out of scope. -/
structure AMQPConfig where
  serverURLFile : String
  server : String
deriving DecidableEq, Repr

/-- ServerURL returns the appropriate server URL for this object, which may
involve reading from a file (`AMQPConfig.ServerURL`).  Go runs
`url, err := ioutil.ReadFile(...)` and returns
`strings.TrimRight(string(url), "\n"), err`; in the literal branch an empty
`Server` is a hard error. -/
def AMQPConfig.serverURL (fs : FileSystem) (a : AMQPConfig) :
    String × Option GoErr :=
  if a.serverURLFile ≠ "" then
    let r := readFile fs a.serverURLFile
    (trimRightNewlines r.1, r.2)
  else if a.server = "" then
    ("", some GoErr.missingAMQPServerURL)
  else
    (a.server, none)

/-- Modelled from the spec: `core.ValidChallenge`, the challenge-type
registry's membership test, lives in the external `core` package and is not
under `src/`.  The spec describes it as membership in "a fixed,
externally-defined set of valid challenge-type identifiers" in which
"http-01" is a member and "not-a-real-challenge" is not; the ACME
challenge-type names of the era are used as that set. -/
def validChallenge (name : String) : Bool :=
  name = "http-01" || name = "tls-sni-01" || name = "dns-01"

/-- PAConfig specifies how a policy authority should connect to its
database, what policies it should enforce, and what challenges it should
offer (`cmd/config.go`).  The Go `map[string]bool` is modelled as an
association list; Go's map iteration order is unspecified, so theorems
about which key an error names are stated only where the order cannot
matter. -/
structure PAConfig where
  dbConfig : DBConfig
  enforcePolicyWhitelist : Bool
  challenges : List (String × Bool)

/-- CheckChallenges checks whether the list of challenges in the PA config
actually contains valid challenge names (`PAConfig.CheckChallenges`): an
empty map is refused outright, and the first key (in iteration order) that
the registry rejects is named in the error. -/
def PAConfig.checkChallenges (pc : PAConfig) : Option GoErr :=
  if pc.challenges.isEmpty then
    some GoErr.emptyChallenges
  else
    match pc.challenges.find? (fun kv => !validChallenge kv.1) with
    | some kv => some (GoErr.invalidChallenge kv.1)
    | none => none

/-! ## The JSON layer (`encoding/json`) for a string target

`ConfigDuration.UnmarshalJSON` calls `json.Unmarshal(b, &s)` with
`s : string`.  `jsonUnmarshalString` models that call on scalar documents:
it validates the input and either decodes a JSON string literal, reports an
`UnmarshalTypeError` for a valid non-string value, leaves the target
untouched for `null`, or reports a `SyntaxError` for invalid input.
Composite values (`[...]`, `{...}`) are classified by their opening bracket
without validating their interior; no theorem below exercises them. -/

/-- JSON insignificant whitespace skipper. -/
def skipJsonWs (cs : List Char) : List Char :=
  cs.dropWhile (fun c => c = ' ' || c = '\t' || c = '\n' || c = '\r')

/-- Decoder for the body of a JSON string literal (after the opening quote):
returns the decoded characters and the input remaining after the closing
quote.  Control characters are rejected as Go does; of the escapes the
common single-character ones are decoded (`\uXXXX` never occurs in the
inputs in scope and is rejected). -/
def jsonStrBody : List Char → Option (List Char × List Char)
  | [] => none
  | '"' :: rest => some ([], rest)
  | '\\' :: e :: rest =>
    let dec : Option Char :=
      if e = '"' then some '"'
      else if e = '\\' then some '\\'
      else if e = '/' then some '/'
      else if e = 'b' then some '\x08'
      else if e = 'f' then some '\x0c'
      else if e = 'n' then some '\n'
      else if e = 'r' then some '\r'
      else if e = 't' then some '\t'
      else none
    match dec with
    | none => none
    | some d =>
      match jsonStrBody rest with
      | none => none
      | some (s, r) => some (d :: s, r)
  | '\\' :: [] => none
  | c :: rest =>
    if c.toNat < 32 then none
    else
      match jsonStrBody rest with
      | none => none
      | some (s, r) => some (c :: s, r)

/-- Exponent part of a JSON number: optional `e`/`E`, sign, digits.
Returns the remaining input, or `none` if an exponent marker is present but
malformed. -/
def jsonNumExp (cs : List Char) : Option (List Char) :=
  match cs with
  | c :: rest =>
    if c = 'e' || c = 'E' then
      let rest2 := match rest with
        | s :: r => if s = '+' || s = '-' then r else s :: r
        | [] => []
      match rest2 with
      | d :: _ => if d.isDigit then some (rest2.dropWhile Char.isDigit) else none
      | [] => none
    else some (c :: rest)
  | [] => some []

/-- Fraction part of a JSON number: optional `.` followed by one or more
digits, then the exponent part. -/
def jsonNumFrac (cs : List Char) : Option (List Char) :=
  match cs with
  | '.' :: rest =>
    (match rest with
     | d :: _ => if d.isDigit then jsonNumExp (rest.dropWhile Char.isDigit) else none
     | [] => none)
  | _ => jsonNumExp cs

/-- Integer-and-onwards part of a JSON number after any leading minus sign:
`0` or a nonzero digit followed by digits, then fraction and exponent. -/
def jsonNumTail (cs : List Char) : Option (List Char) :=
  match cs with
  | '0' :: rest => jsonNumFrac rest
  | c :: rest =>
    if c.isDigit then jsonNumFrac (rest.dropWhile Char.isDigit) else none
  | [] => none

/-- Model of `json.Unmarshal(b, &s)` for a string target whose prior value
is `s0` (the call site initialises `s` to `""`).  Go first validates the
whole input (yielding `*json.SyntaxError` on invalid JSON) and then stores
into the string target, yielding `*json.UnmarshalTypeError` for a valid
non-string value; `null` is a decoding no-op that leaves the target at its
prior value. -/
def jsonUnmarshalString (b : String) (s0 : String) : Except GoErr String :=
  match skipJsonWs b.data with
  | [] => Except.error GoErr.jsonSyntaxError
  | '"' :: rest =>
    (match jsonStrBody rest with
     | none => Except.error GoErr.jsonSyntaxError
     | some (content, rest2) =>
       if skipJsonWs rest2 = [] then Except.ok (String.mk content)
       else Except.error GoErr.jsonSyntaxError)
  | 't' :: 'r' :: 'u' :: 'e' :: rest =>
    if skipJsonWs rest = [] then Except.error (GoErr.jsonTypeError "bool")
    else Except.error GoErr.jsonSyntaxError
  | 'f' :: 'a' :: 'l' :: 's' :: 'e' :: rest =>
    if skipJsonWs rest = [] then Except.error (GoErr.jsonTypeError "bool")
    else Except.error GoErr.jsonSyntaxError
  | 'n' :: 'u' :: 'l' :: 'l' :: rest =>
    if skipJsonWs rest = [] then Except.ok s0
    else Except.error GoErr.jsonSyntaxError
  | '-' :: rest =>
    (match jsonNumTail rest with
     | some rest2 =>
       if skipJsonWs rest2 = [] then Except.error (GoErr.jsonTypeError "number")
       else Except.error GoErr.jsonSyntaxError
     | none => Except.error GoErr.jsonSyntaxError)
  | '[' :: _ => Except.error (GoErr.jsonTypeError "array")
  | '{' :: _ => Except.error (GoErr.jsonTypeError "object")
  | c :: rest =>
    if c.isDigit then
      match jsonNumTail (c :: rest) with
      | some rest2 =>
        if skipJsonWs rest2 = [] then Except.error (GoErr.jsonTypeError "number")
        else Except.error GoErr.jsonSyntaxError
      | none => Except.error GoErr.jsonSyntaxError
    else Except.error GoErr.jsonSyntaxError

/-! ## `time.ParseDuration` and `time.Duration.String`

`time.Duration` is an `int64` count of nanoseconds, modelled as `Int`
(the in-range invariant is maintained by the overflow checks below, which
mirror Go's).  Fractional components are accumulated with exact integer
arithmetic; Go scales them through `float64`, which agrees on every value
where no rounding occurs (all inputs in scope). -/

/-- Go's int64 maximum, the overflow bound of `time.ParseDuration`. -/
def int64Max : Nat := 2 ^ 63 - 1

/-- Model of `time`'s `leadingInt`: consumes leading decimal digits into a
nonnegative integer, failing (with `Except.error ()`) on int64 overflow. -/
def leadingInt : List Char → Nat → Except Unit (Nat × List Char)
  | [], x => Except.ok (x, [])
  | c :: rest, x =>
    if c.isDigit then
      if x > int64Max / 10 then Except.error ()
      else
        let y := x * 10 + (c.toNat - 48)
        if y > int64Max then Except.error ()
        else leadingInt rest y
    else Except.ok (x, c :: rest)

/-- Model of `time`'s `leadingFraction`: consumes leading decimal digits as
the fraction part, returning the value, the scale `10^k` for the digits
kept, and the rest; on overflow it stops accumulating but keeps consuming
digits, exactly as Go does. -/
def leadingFraction : List Char → Nat → Nat → Bool → (Nat × Nat × List Char)
  | [], x, scale, _ => (x, scale, [])
  | c :: rest, x, scale, overflow =>
    if c.isDigit then
      if overflow then leadingFraction rest x scale true
      else if x > int64Max / 10 then leadingFraction rest x scale true
      else
        let y := x * 10 + (c.toNat - 48)
        if y > int64Max then leadingFraction rest x scale true
        else leadingFraction rest y (scale * 10) false
    else (x, scale, c :: rest)

/-- Nanoseconds per recognised unit: the `unitMap` of `time.ParseDuration`
(`ns`, `us`, `µs` U+00B5, `μs` U+03BC, `ms`, `s`, `m`, `h`). -/
def unitVal (u : String) : Option Nat :=
  if u = "ns" then some 1
  else if u = "us" then some 1000
  else if u = "µs" then some 1000
  else if u = "μs" then some 1000
  else if u = "ms" then some 1000000
  else if u = "s" then some 1000000000
  else if u = "m" then some 60000000000
  else if u = "h" then some 3600000000000
  else none

/-- Loop body of `time.ParseDuration`: consumes one
`(digits (.digits)? unit)` component per iteration, accumulating the
nanosecond total with Go's overflow checks.  Each iteration consumes at
least one character, so fuel equal to the input length suffices; `orig` is
the original string carried for error messages. -/
def parseDurationLoop (orig : String) : Nat → List Char → Nat → Except GoErr Nat
  | _, [], d => Except.ok d
  | 0, _ :: _, _ => Except.error (GoErr.timeInvalidDuration orig)
  | fuel + 1, c :: rest, d =>
    if ¬(c = '.' || c.isDigit) then Except.error (GoErr.timeInvalidDuration orig)
    else
      match leadingInt (c :: rest) 0 with
      | Except.error () => Except.error (GoErr.timeInvalidDuration orig)
      | Except.ok (v, s1) =>
        let pre : Bool := s1.length != (c :: rest).length
        let (f, scale, s2, post) :=
          match s1 with
          | '.' :: afterDot =>
            let r := leadingFraction afterDot 0 1 false
            (r.1, r.2.1, r.2.2, r.2.2.length != afterDot.length)
          | _ => (0, 1, s1, false)
        if !pre && !post then Except.error (GoErr.timeInvalidDuration orig)
        else
          let uChars := s2.takeWhile (fun ch => ¬(ch = '.' || ch.isDigit))
          let s3 := s2.dropWhile (fun ch => ¬(ch = '.' || ch.isDigit))
          if uChars.isEmpty then Except.error (GoErr.timeMissingUnit orig)
          else
            match unitVal (String.mk uChars) with
            | none => Except.error (GoErr.timeUnknownUnit (String.mk uChars) orig)
            | some unit =>
              if v > int64Max / unit then Except.error (GoErr.timeOverflow orig)
              else
                let v1 := v * unit
                let v2 := v1 + f * unit / scale
                if v2 > int64Max then Except.error (GoErr.timeOverflow orig)
                else
                  let d2 := d + v2
                  if d2 > int64Max then Except.error (GoErr.timeOverflow orig)
                  else parseDurationLoop orig fuel s3 d2

/-- Model of `time.ParseDuration`: grammar
`[-+]?([0-9]*(\.[0-9]*)?[a-z]+)+`, with `"0"` (optionally signed) special
cased, the empty remainder rejected, and int64 overflow checked.  Every
error path returns the duration `0` alongside the error in Go; callers that
assign the result before checking the error therefore store `0`. -/
def parseDuration (s : String) : Except GoErr Int :=
  let cs := s.data
  let (neg, cs1) :=
    match cs with
    | c :: rest => if c = '-' || c = '+' then (c == '-', rest) else (false, cs)
    | [] => (false, cs)
  if cs1 = ['0'] then Except.ok 0
  else if cs1.isEmpty then Except.error (GoErr.timeInvalidDuration s)
  else
    match parseDurationLoop s cs1.length cs1 0 with
    | Except.error e => Except.error e
    | Except.ok d => Except.ok (if neg then -(d : Int) else (d : Int))

/-- Model of `time`'s `fmtFrac`: formats the `prec` least significant
digits of `v` as a fraction, omitting trailing zeros and the decimal point
when the fraction is zero; returns the fraction characters (with leading
`.` when nonempty) and the remaining value. -/
def fmtFrac : Nat → Nat → Bool → List Char → (List Char × Nat)
  | 0, v, pr, acc => (if pr then '.' :: acc else acc, v)
  | prec + 1, v, pr, acc =>
    let digit := v % 10
    let pr2 := pr || digit ≠ 0
    let acc2 := if pr2 then Char.ofNat (48 + digit) :: acc else acc
    fmtFrac prec (v / 10) pr2 acc2

/-- Model of `time.Duration.String`: durations under a second use a single
`ns`/`µs`/`ms` unit with a fractional mantissa, the zero duration prints as
"0s", and larger durations print as `[-]<h>h<m>m<s[.frac]>s` with hours and
minutes omitted when zero. -/
def durationString (d : Int) : String :=
  let u := d.natAbs
  let sign := if d < 0 then "-" else ""
  if u < 1000000000 then
    if u = 0 then "0s"
    else
      let (prec, unit) :=
        if u < 1000 then (0, "ns")
        else if u < 1000000 then (3, "µs")
        else (6, "ms")
      let fr := fmtFrac prec u false []
      sign ++ toString fr.2 ++ String.mk fr.1 ++ unit
  else
    let fr := fmtFrac 9 u false []
    let u1 := fr.2
    let secPart := toString (u1 % 60) ++ String.mk fr.1 ++ "s"
    let rest :=
      if u1 / 60 > 0 then
        let u2 := u1 / 60
        let minPart := toString (u2 % 60) ++ "m"
        if u2 / 60 > 0 then toString (u2 / 60) ++ "h" ++ minPart else minPart
      else ""
    sign ++ rest ++ secPart

/-! ## The `ConfigDuration` codec -/

/-- ConfigDuration is just an alias for `time.Duration` that allows
serialization to YAML as well as JSON (`cmd/config.go`); the wrapped
duration is an int64 nanosecond count. -/
structure ConfigDuration where
  duration : Int
deriving DecidableEq, Repr

/-- UnmarshalJSON parses a string into a ConfigDuration using
`time.ParseDuration` (`ConfigDuration.UnmarshalJSON`).  A
`*json.UnmarshalTypeError` from the JSON layer is replaced by
`ErrDurationMustBeString`; any other JSON-layer error is returned as is,
leaving the receiver untouched.  When the JSON layer yields a string, Go
runs `dd, err := time.ParseDuration(s); d.Duration = dd; return err` — the
assignment happens before the error check, so a parse failure stores `0`. -/
def unmarshalJSON (b : String) (d : ConfigDuration) :
    ConfigDuration × Option GoErr :=
  match jsonUnmarshalString b "" with
  | Except.error e =>
    match e with
    | GoErr.jsonTypeError _ => (d, some GoErr.durationMustBeString)
    | _ => (d, some e)
  | Except.ok s =>
    match parseDuration s with
    | Except.ok v => ({ duration := v }, none)
    | Except.error e => ({ duration := 0 }, some e)

/-- MarshalJSON returns the string form of the duration, as a byte array
(`ConfigDuration.MarshalJSON`): Go returns
`[]byte(d.Duration.String()), nil` — note the bytes are the bare duration
string with no JSON quoting. -/
def marshalJSON (d : ConfigDuration) : String × Option GoErr :=
  (durationString d.duration, none)

/-- Scalar node handed to `ConfigDuration.UnmarshalYAML` by the yaml
library; the duration claims concern string and non-string scalars
(bare numbers, booleans). -/
inductive YamlScalar where
  | str (s : String) : YamlScalar
  | num (n : Int) : YamlScalar
  | bool (b : Bool) : YamlScalar
deriving DecidableEq, Repr

/-- Model of the yaml library's `unmarshal` callback for a `*string`
target: a string scalar decodes to itself; an int or bool scalar is a yaml
type error ("cannot unmarshal !!int / !!bool into string"). -/
def yamlUnmarshalString : YamlScalar → Except GoErr String
  | YamlScalar.str s => Except.ok s
  | YamlScalar.num _ => Except.error (GoErr.yamlTypeError "int")
  | YamlScalar.bool _ => Except.error (GoErr.yamlTypeError "bool")

/-- UnmarshalYAML uses the same format as JSON, but is called by the YAML
parsing machinery (`ConfigDuration.UnmarshalYAML`): an error from the
`unmarshal` callback is returned unchanged, a `time.ParseDuration` failure
is returned before the receiver is assigned, and only on full success is
the receiver updated. -/
def unmarshalYAML (node : YamlScalar) (d : ConfigDuration) :
    ConfigDuration × Option GoErr :=
  match yamlUnmarshalString node with
  | Except.error e => (d, some e)
  | Except.ok s =>
    match parseDuration s with
    | Except.error e => (d, some e)
    | Except.ok v => ({ duration := v }, none)

/-! ## Claims -/

/-- C1: the claim asserts that decoding the JSON encoding of any duration
yields the duration back.  The code violates it: `MarshalJSON` returns the
bare bytes of `Duration.String()` with no JSON quoting, so the encoding of
the zero duration is the invalid JSON document `0s` (and of 90 minutes,
`1h30m0s`), and `UnmarshalJSON` rejects it with a `*json.SyntaxError`
instead of reproducing the duration. -/
theorem configDuration_json_roundtrip_fails :
    (marshalJSON ⟨0⟩).1 = "0s" ∧
    unmarshalJSON (marshalJSON ⟨0⟩).1 ⟨0⟩ = (⟨0⟩, some GoErr.jsonSyntaxError) ∧
    (marshalJSON ⟨5400000000000⟩).1 = "1h30m0s" ∧
    unmarshalJSON (marshalJSON ⟨5400000000000⟩).1 ⟨5400000000000⟩ =
      (⟨5400000000000⟩, some GoErr.jsonSyntaxError) := by
  refine ⟨rfl, rfl, rfl, rfl⟩

/-- C2 counterexample: the claim asserts both decoding hooks fail with
`ErrDurationMustBeString` on every non-string scalar.  The YAML hook
returns the yaml library's own type error unchanged instead, and the JSON
hook treats `null` as a decoding no-op and then fails duration-parsing of
the empty string. -/
theorem duration_nonstring_counterexample :
    unmarshalYAML (YamlScalar.num 30) ⟨0⟩ = (⟨0⟩, some (GoErr.yamlTypeError "int")) ∧
    GoErr.yamlTypeError "int" ≠ GoErr.durationMustBeString ∧
    unmarshalJSON "null" ⟨0⟩ = (⟨0⟩, some (GoErr.timeInvalidDuration "")) ∧
    GoErr.timeInvalidDuration "" ≠ GoErr.durationMustBeString := by
  refine ⟨rfl, by decide, rfl, by decide⟩

/-- C2 amended: decoding a scalar the JSON layer classifies as a type
mismatch (any valid non-string, non-null JSON value, e.g. a bare number or
boolean) fails with `ErrDurationMustBeString`; the YAML hook instead
propagates the yaml library's own type error unchanged, never
`ErrDurationMustBeString`. -/
theorem duration_nonstring_amended :
    (∀ (b : String) (d : ConfigDuration) (t : String),
      jsonUnmarshalString b "" = Except.error (GoErr.jsonTypeError t) →
      unmarshalJSON b d = (d, some GoErr.durationMustBeString)) ∧
    (∀ d : ConfigDuration,
      unmarshalJSON "30" d = (d, some GoErr.durationMustBeString)) ∧
    (∀ d : ConfigDuration,
      unmarshalJSON "true" d = (d, some GoErr.durationMustBeString)) ∧
    (∀ (n : Int) (d : ConfigDuration),
      unmarshalYAML (YamlScalar.num n) d = (d, some (GoErr.yamlTypeError "int"))) ∧
    (∀ (bl : Bool) (d : ConfigDuration),
      unmarshalYAML (YamlScalar.bool bl) d = (d, some (GoErr.yamlTypeError "bool"))) := by
  refine ⟨?_, fun d => rfl, fun d => rfl, fun n d => rfl, fun bl d => rfl⟩
  intro b d t h
  simp [unmarshalJSON, h]

/-- C2 witness: the amended theorem evaluated at the bare number `30` for
JSON and the integer scalar `30` for YAML. -/
theorem duration_nonstring_amended_witness :
    unmarshalJSON "30" ⟨0⟩ = (⟨0⟩, some GoErr.durationMustBeString) ∧
    unmarshalYAML (YamlScalar.num 30) ⟨0⟩ = (⟨0⟩, some (GoErr.yamlTypeError "int")) :=
  ⟨duration_nonstring_amended.1 "30" ⟨0⟩ "number" rfl,
   duration_nonstring_amended.2.2.2.1 30 ⟨0⟩⟩

/-- C3: for an instance whose file-path field and literal field are both
non-empty, each resolver returns the trimmed contents of a readable file,
and the literal is ignored entirely — resolution is unchanged under any
replacement of the literal. -/
theorem file_precedence_absolute (fs : FileSystem) (lit file contents : String)
    (m : Int) (hfile : file ≠ "") (_hlit : lit ≠ "")
    (hread : fs file = some contents) :
    PasswordConfig.pass fs ⟨lit, file⟩ = (trimRightNewlines contents, none) ∧
    DBConfig.url fs ⟨lit, file, m⟩ = (trimSpace contents, none) ∧
    AMQPConfig.serverURL fs ⟨file, lit⟩ = (trimRightNewlines contents, none) ∧
    (∀ lit2, PasswordConfig.pass fs ⟨lit2, file⟩ = PasswordConfig.pass fs ⟨lit, file⟩) ∧
    (∀ lit2, DBConfig.url fs ⟨lit2, file, m⟩ = DBConfig.url fs ⟨lit, file, m⟩) ∧
    (∀ lit2, AMQPConfig.serverURL fs ⟨file, lit2⟩ = AMQPConfig.serverURL fs ⟨file, lit⟩) := by
  refine ⟨?_, ?_, ?_, fun lit2 => ?_, fun lit2 => ?_, fun lit2 => ?_⟩ <;>
    simp [PasswordConfig.pass, DBConfig.url, AMQPConfig.serverURL, readFile, hfile, hread]

/-- C3 witness: the precedence theorem evaluated on a one-file filesystem
with both fields populated. -/
theorem file_precedence_absolute_witness :
    PasswordConfig.pass (fun p => if p = "f" then some "c\n" else none) ⟨"lit", "f"⟩ =
      (trimRightNewlines "c\n", none) ∧
    DBConfig.url (fun p => if p = "f" then some "c\n" else none) ⟨"lit", "f", 0⟩ =
      (trimSpace "c\n", none) ∧
    AMQPConfig.serverURL (fun p => if p = "f" then some "c\n" else none) ⟨"f", "lit"⟩ =
      (trimRightNewlines "c\n", none) ∧
    (∀ lit2, PasswordConfig.pass (fun p => if p = "f" then some "c\n" else none) ⟨lit2, "f"⟩ =
      PasswordConfig.pass (fun p => if p = "f" then some "c\n" else none) ⟨"lit", "f"⟩) ∧
    (∀ lit2, DBConfig.url (fun p => if p = "f" then some "c\n" else none) ⟨lit2, "f", 0⟩ =
      DBConfig.url (fun p => if p = "f" then some "c\n" else none) ⟨"lit", "f", 0⟩) ∧
    (∀ lit2, AMQPConfig.serverURL (fun p => if p = "f" then some "c\n" else none) ⟨"f", lit2⟩ =
      AMQPConfig.serverURL (fun p => if p = "f" then some "c\n" else none) ⟨"f", "lit"⟩) :=
  file_precedence_absolute (fun p => if p = "f" then some "c\n" else none)
    "lit" "f" "c\n" 0 (by decide) (by decide) (by decide)

/-- C4: with both the literal and the file-path field empty,
`AMQPConfig.ServerURL` fails with the missing-AMQP-server-URL error, while
`PasswordConfig.Pass` and `DBConfig.URL` succeed with the empty string. -/
theorem empty_resolution_policy (fs : FileSystem) (m : Int) :
    AMQPConfig.serverURL fs ⟨"", ""⟩ = ("", some GoErr.missingAMQPServerURL) ∧
    PasswordConfig.pass fs ⟨"", ""⟩ = ("", none) ∧
    DBConfig.url fs ⟨"", "", m⟩ = ("", none) := by
  refine ⟨rfl, rfl, rfl⟩

/-- C5: when the file-path field names a file the filesystem cannot read,
each resolver returns a non-nil file-read error carrying the path, never a
successful zero-value result. -/
theorem unreadable_file_errors (fs : FileSystem) (lit file : String) (m : Int)
    (hfile : file ≠ "") (hfail : fs file = none) :
    PasswordConfig.pass fs ⟨lit, file⟩ = ("", some (GoErr.fileReadError file)) ∧
    DBConfig.url fs ⟨lit, file, m⟩ = ("", some (GoErr.fileReadError file)) ∧
    AMQPConfig.serverURL fs ⟨file, lit⟩ = ("", some (GoErr.fileReadError file)) := by
  refine ⟨?_, ?_, ?_⟩ <;>
    simp [PasswordConfig.pass, DBConfig.url, AMQPConfig.serverURL, readFile, hfile, hfail,
      trimSpace, trimLeftChars, trimRightChars, trimRightNewlines]

/-- C5 witness: the unreadable-file theorem evaluated on the empty
filesystem. -/
theorem unreadable_file_errors_witness :
    PasswordConfig.pass (fun _ => none) ⟨"x", "f"⟩ = ("", some (GoErr.fileReadError "f")) ∧
    DBConfig.url (fun _ => none) ⟨"x", "f", 0⟩ = ("", some (GoErr.fileReadError "f")) ∧
    AMQPConfig.serverURL (fun _ => none) ⟨"f", "x"⟩ = ("", some (GoErr.fileReadError "f")) :=
  unreadable_file_errors (fun _ => none) "x" "f" 0 (by decide) rfl

/-- C6 counterexample: the claim describes the trailing-edge trim policy of
`Pass` and `ServerURL` as trimming "trailing whitespace/newline".  The code
trims only the character `'\n'`: a password file whose contents end in a
space resolves with its trailing space intact, and a server-URL file whose
contents end in a tab keeps the tab — whitespace-trimming of the trailing
edge would have removed them. -/
theorem trim_policy_counterexample :
    PasswordConfig.pass (fun p => if p = "pw" then some "a " else none) ⟨"lit", "pw"⟩ =
      ("a ", none) ∧
    trimRightChars "a " isGoSpace = "a" ∧ ("a " : String) ≠ "a" ∧
    AMQPConfig.serverURL (fun p => if p = "u" then some "b\t" else none) ⟨"u", "lit"⟩ =
      ("b\t", none) ∧
    trimRightChars "b\t" isGoSpace = "b" ∧ ("b\t" : String) ≠ "b" := by
  refine ⟨rfl, by decide, by decide, rfl, by decide, by decide⟩

/-- C6 amended: `Pass` and `ServerURL` trim file contents only on the
trailing edge and only for newline characters (other trailing whitespace is
kept), `URL` trims whitespace on both edges, and an instance with only the
literal set resolves to the literal unchanged, with no trimming at any call
site. -/
theorem trim_policy_amended (fs : FileSystem) (lit file contents : String)
    (m : Int) (hfile : file ≠ "") (hlit : lit ≠ "")
    (hread : fs file = some contents) :
    PasswordConfig.pass fs ⟨lit, file⟩ = (trimRightNewlines contents, none) ∧
    AMQPConfig.serverURL fs ⟨file, lit⟩ = (trimRightNewlines contents, none) ∧
    trimRightNewlines contents = trimRightChars contents (fun c => c = '\n') ∧
    DBConfig.url fs ⟨lit, file, m⟩ = (trimSpace contents, none) ∧
    trimSpace contents = trimRightChars (trimLeftChars contents isGoSpace) isGoSpace ∧
    PasswordConfig.pass fs ⟨lit, ""⟩ = (lit, none) ∧
    DBConfig.url fs ⟨lit, "", m⟩ = (lit, none) ∧
    AMQPConfig.serverURL fs ⟨"", lit⟩ = (lit, none) := by
  refine ⟨?_, ?_, rfl, ?_, rfl, rfl, rfl, ?_⟩
  · simp [PasswordConfig.pass, hfile, hread]
  · simp [AMQPConfig.serverURL, readFile, hfile, hread]
  · simp [DBConfig.url, readFile, hfile, hread]
  · simp [AMQPConfig.serverURL, hlit]

/-- C6 witness: the amended trim-policy theorem evaluated on a file whose
contents carry both inner whitespace and a trailing newline. -/
theorem trim_policy_amended_witness :
    PasswordConfig.pass (fun p => if p = "f" then some " c \n" else none) ⟨"lit", "f"⟩ =
      (trimRightNewlines " c \n", none) ∧
    AMQPConfig.serverURL (fun p => if p = "f" then some " c \n" else none) ⟨"f", "lit"⟩ =
      (trimRightNewlines " c \n", none) ∧
    trimRightNewlines " c \n" = trimRightChars " c \n" (fun c => c = '\n') ∧
    DBConfig.url (fun p => if p = "f" then some " c \n" else none) ⟨"lit", "f", 0⟩ =
      (trimSpace " c \n", none) ∧
    trimSpace " c \n" = trimRightChars (trimLeftChars " c \n" isGoSpace) isGoSpace ∧
    PasswordConfig.pass (fun p => if p = "f" then some " c \n" else none) ⟨"lit", ""⟩ =
      ("lit", none) ∧
    DBConfig.url (fun p => if p = "f" then some " c \n" else none) ⟨"lit", "", 0⟩ =
      ("lit", none) ∧
    AMQPConfig.serverURL (fun p => if p = "f" then some " c \n" else none) ⟨"", "lit"⟩ =
      ("lit", none) :=
  trim_policy_amended (fun p => if p = "f" then some " c \n" else none)
    "lit" "f" " c \n" 0 (by decide) (by decide) (by decide)

/-- C7: `CheckChallenges` refuses an empty challenges map, names the
offending key when a key is not a valid challenge name per the registry
(shown for both iteration orders of the two-key example map, so the Go
map's unspecified order cannot matter), and returns nil whenever the map is
non-empty and every key is valid. -/
theorem checkChallenges_spec :
    PAConfig.checkChallenges ⟨⟨"", "", 0⟩, false, []⟩ = some GoErr.emptyChallenges ∧
    PAConfig.checkChallenges ⟨⟨"", "", 0⟩, false,
      [("http-01", true), ("not-a-real-challenge", true)]⟩ =
      some (GoErr.invalidChallenge "not-a-real-challenge") ∧
    PAConfig.checkChallenges ⟨⟨"", "", 0⟩, false,
      [("not-a-real-challenge", true), ("http-01", true)]⟩ =
      some (GoErr.invalidChallenge "not-a-real-challenge") ∧
    PAConfig.checkChallenges ⟨⟨"", "", 0⟩, false, [("http-01", true)]⟩ = none ∧
    ∀ (db : DBConfig) (w : Bool) (l : List (String × Bool)), l ≠ [] →
      (∀ kv ∈ l, validChallenge kv.1 = true) →
      PAConfig.checkChallenges ⟨db, w, l⟩ = none := by
  refine ⟨by decide, by decide, by decide, by decide, ?_⟩
  intro db w l hne hall
  have h1 : l.isEmpty = false := by
    cases l with
    | nil => exact absurd rfl hne
    | cons a t => rfl
  have h2 : l.find? (fun kv => !validChallenge kv.1) = none := by
    rw [List.find?_eq_none]
    intro x hx
    simp [hall x hx]
  simp [PAConfig.checkChallenges, h1, h2]

/-- C7 witness: the validation theorem's universal clause evaluated on a
singleton map with a valid key. -/
theorem checkChallenges_spec_witness :
    PAConfig.checkChallenges ⟨⟨"", "", 0⟩, false, [("dns-01", true)]⟩ = none :=
  checkChallenges_spec.2.2.2.2 ⟨"", "", 0⟩ false [("dns-01", true)]
    (by decide) (by decide)

/-- C8: the claim asserts that encoding the zero duration yields a
string-typed raw value equal to "0s".  The code yields the bare bytes `0s`
with no error — equal to the literal string "0s" but carrying no JSON
quoting, so the raw value is not a string-typed JSON value: the JSON layer
rejects those bytes with a syntax error instead of decoding a string. -/
theorem marshal_zero_duration_bytes :
    marshalJSON ⟨0⟩ = ("0s", none) ∧
    jsonUnmarshalString "0s" "" = Except.error GoErr.jsonSyntaxError ∧
    jsonUnmarshalString (String.mk ('"' :: "0s".data ++ ['"'])) "" = Except.ok "0s" := by
  refine ⟨rfl, rfl, rfl⟩

/-- C9 counterexample: the claim asserts the receiver is unchanged whenever
decoding errors.  `UnmarshalJSON` assigns the result of
`time.ParseDuration` before checking its error, so decoding the valid JSON
string "bogus" into a receiver holding 5ns returns a parse error and
overwrites the stored duration with 0. -/
theorem decode_mutation_counterexample :
    unmarshalJSON "\"bogus\"" ⟨5⟩ = (⟨0⟩, some (GoErr.timeInvalidDuration "bogus")) ∧
    (⟨0⟩ : ConfigDuration) ≠ ⟨5⟩ := by
  refine ⟨rfl, by decide⟩

/-- C9 amended: `UnmarshalYAML` is all-or-nothing (any error leaves the
receiver unchanged), and `UnmarshalJSON` leaves the receiver unchanged when
the JSON layer itself errors, but on a duration-parse failure it overwrites
the stored duration with zero while returning the error. -/
theorem decode_atomicity_amended :
    (∀ (node : YamlScalar) (d : ConfigDuration) (e : GoErr),
      (unmarshalYAML node d).2 = some e → (unmarshalYAML node d).1 = d) ∧
    (∀ (b : String) (d : ConfigDuration) (e : GoErr),
      jsonUnmarshalString b "" = Except.error e → (unmarshalJSON b d).1 = d) ∧
    (∀ (b : String) (d : ConfigDuration) (s : String) (e : GoErr),
      jsonUnmarshalString b "" = Except.ok s → parseDuration s = Except.error e →
      unmarshalJSON b d = (⟨0⟩, some e)) := by
  refine ⟨?_, ?_, ?_⟩
  · intro node d e h
    cases hy : yamlUnmarshalString node with
    | error e2 => simp [unmarshalYAML, hy]
    | ok s =>
      cases hp : parseDuration s with
      | error e2 => simp [unmarshalYAML, hy, hp]
      | ok v => simp [unmarshalYAML, hy, hp] at h
  · intro b d e h
    cases e <;> simp [unmarshalJSON, h]
  · intro b d s e h1 h2
    simp [unmarshalJSON, h1, h2]

/-- C9 witness: the amended atomicity theorem evaluated at a yaml integer
scalar, at the invalid JSON document `0s`, and at the JSON string "nope"
whose duration parse fails. -/
theorem decode_atomicity_amended_witness :
    (unmarshalYAML (YamlScalar.num 3) ⟨5⟩).1 = ⟨5⟩ ∧
    (unmarshalJSON "0s" ⟨5⟩).1 = ⟨5⟩ ∧
    unmarshalJSON "\"nope\"" ⟨5⟩ = (⟨0⟩, some (GoErr.timeInvalidDuration "nope")) :=
  ⟨decode_atomicity_amended.1 (YamlScalar.num 3) ⟨5⟩ (GoErr.yamlTypeError "int") rfl,
   decode_atomicity_amended.2.1 "0s" ⟨5⟩ GoErr.jsonSyntaxError rfl,
   decode_atomicity_amended.2.2 "\"nope\"" ⟨5⟩ "nope" (GoErr.timeInvalidDuration "nope")
     rfl rfl⟩

/-- C10: when `ServerURLFile` is non-empty and the backing file is readable
but contains only newlines (or nothing), `ServerURL` returns the empty
string with a nil error — the missing-server-URL check applies only in the
literal branch, never to resolved file contents. -/
theorem serverURL_empty_file_ok (fs : FileSystem) (a : AMQPConfig)
    (contents : String) (hfile : a.serverURLFile ≠ "")
    (hread : fs a.serverURLFile = some contents)
    (hnl : ∀ c ∈ contents.data, c = '\n') :
    AMQPConfig.serverURL fs a = ("", none) := by
  have ht : trimRightNewlines contents = "" := by
    have hd : contents.data.reverse.dropWhile (fun c => c = '\n') = [] := by
      rw [List.dropWhile_eq_nil_iff]
      intro x hx
      simp [hnl x (List.mem_reverse.mp hx)]
    simp [trimRightNewlines, trimRightChars, hd]
  simp [AMQPConfig.serverURL, readFile, hfile, hread, ht]

/-- C10 witness: the empty-file theorem evaluated on a file holding two
newlines, with a non-empty literal also populated. -/
theorem serverURL_empty_file_ok_witness :
    AMQPConfig.serverURL (fun p => if p = "u" then some "\n\n" else none)
      ⟨"u", "lit"⟩ = ("", none) :=
  serverURL_empty_file_ok (fun p => if p = "u" then some "\n\n" else none)
    ⟨"u", "lit"⟩ "\n\n" (by decide) (by decide) (by decide)
